import Mathlib

set_option maxRecDepth 16384

/-!
Verification of the FLARM binary protocol layer of XCSoar: the byte-stuffing
codec (`FLARM::SendEscaped` / `ReceiveSomeUnescape` / `FLARM::ReceiveEscaped`),
the frame-header model (`FLARM::PrepareFrameHeader`, CRC), and the exchange
engine (`FlarmDevice::WaitForACKOrNACK`, `FlarmDevice::BinaryPing`).

Bytes are modelled as `Nat` values (a byte sequence carries the side condition
`∀ x ∈ b, x < 256` where relevant).  The serial port is modelled as the list of
bytes available on the wire: `Port::WaitAndRead` into a buffer of capacity `c`
delivers `min c available` bytes, a blocking single-byte read delivers the head
of the list, and an empty list means the blocking call runs into its deadline
(`DeviceTimeout`).
-/

namespace FLARM

/-- Modelled from the spec: the reserved byte values and escape replacements are
declared in `Device.hpp`, which is not among the sources here.  The spec only
requires two distinct reserved values (frame-start marker and escape marker)
with distinct escape replacements that are themselves not reserved. -/
def START_FRAME : Nat := 0x73

/-- Modelled from the spec: see `START_FRAME`. -/
def ESCAPE : Nat := 0x78

/-- Modelled from the spec: replacement byte sent after `ESCAPE` to encode a
literal `START_FRAME`. -/
def ESCAPE_START : Nat := 0x31

/-- Modelled from the spec: replacement byte sent after `ESCAPE` to encode a
literal `ESCAPE`. -/
def ESCAPE_ESCAPE : Nat := 0x55

end FLARM

/-- Embedding of the static helper `FindSpecial`: index of the first occurrence
of `FLARM::START_FRAME` or `FLARM::ESCAPE` (the `std::min` of the two forward
scans), or the length of the list if neither occurs. -/
def FindSpecial : List Nat → Nat
  | [] => 0
  | b :: rest =>
    if b = FLARM.START_FRAME ∨ b = FLARM.ESCAPE then 0 else FindSpecial rest + 1

namespace FLARM

/-- Embedding of `FLARM::SendEscaped`: the list of bytes written to the port.
Each iteration bulk-writes the run of harmless bytes up to the next special
byte, then writes the escape replacement of the special byte. -/
def SendEscaped (bs : List Nat) : List Nat :=
  let k := FindSpecial bs
  match h : bs.drop k with
  | [] => bs.take k
  | b :: rest =>
    bs.take k ++
      (if b = START_FRAME then [ESCAPE, ESCAPE_START]
       else if b = ESCAPE then [ESCAPE, ESCAPE_ESCAPE]
       else [b]) ++
      SendEscaped rest
termination_by bs.length
decreasing_by
  have hl := congrArg List.length h
  simp [List.length_drop] at hl
  omega

/-- Per-byte escaping rule of the branches of `FLARM::SendEscaped`: a reserved
byte becomes its two-byte escape sequence, any other byte is sent verbatim. -/
def escapeByte (b : Nat) : List Nat :=
  if b = START_FRAME then [ESCAPE, ESCAPE_START]
  else if b = ESCAPE then [ESCAPE, ESCAPE_ESCAPE]
  else [b]

/-- Concatenated per-byte escaping of a whole buffer. -/
def escAll (bs : List Nat) : List Nat := bs.flatMap escapeByte

end FLARM

/-- Result of one call to `ReceiveSomeUnescape` / `FLARM::ReceiveEscaped`:
`timeout` models a `DeviceTimeout` exception thrown by a blocking port read,
`bad rest` models the `nullptr` return (invalid escape sequence, the C++
`ReceiveEscaped` then returns `false`) with `rest` the bytes still on the wire,
and `ok out rest` is a successful (possibly partial) decode of `out`. -/
inductive UnRes where
  | timeout : UnRes
  | bad (rest : List Nat) : UnRes
  | ok (out rest : List Nat) : UnRes
deriving DecidableEq, Repr

/-- Prepend one decoded byte to the output of a successful decode. -/
def consOut (b : Nat) : UnRes → UnRes
  | .ok out rest => .ok (b :: out) rest
  | r => r

/-- Prepend a list of decoded bytes to the output of a successful decode. -/
def consOutList (out : List Nat) : UnRes → UnRes
  | .ok o r => .ok (out ++ o) r
  | r => r

/-- Embedding of the unescape loop inside `ReceiveSomeUnescape`.  The first
argument is the chunk delivered by `Port::WaitAndRead`, the second the bytes
still on the wire behind it.  An `ESCAPE` that is the last byte of the chunk
triggers one extra blocking single-byte read from the wire (`Port::WaitRead` +
`Port::ReadByte`); an escape byte followed by anything other than
`ESCAPE_START` or `ESCAPE_ESCAPE` fails (`return nullptr`). -/
def unescapeChunk : List Nat → List Nat → UnRes
  | [], s => .ok [] s
  | c :: rest, s =>
    if c = FLARM.ESCAPE then
      match rest with
      | [] =>
        match s with
        | [] => .timeout
        | ch :: s' =>
          if ch = FLARM.ESCAPE_START then .ok [FLARM.START_FRAME] s'
          else if ch = FLARM.ESCAPE_ESCAPE then .ok [FLARM.ESCAPE] s'
          else .bad s'
      | ch :: rest' =>
        if ch = FLARM.ESCAPE_START then consOut FLARM.START_FRAME (unescapeChunk rest' s)
        else if ch = FLARM.ESCAPE_ESCAPE then consOut FLARM.ESCAPE (unescapeChunk rest' s)
        else .bad s
    else consOut c (unescapeChunk rest s)

/-- Embedding of `ReceiveSomeUnescape`: `Port::WaitAndRead` delivers
`min cap s.length` raw bytes (all currently available bytes, up to the
destination capacity); they are then unescaped in place.  An empty wire with a
nonempty destination means the blocking read hits its deadline. -/
def ReceiveSomeUnescape (cap : Nat) (s : List Nat) : UnRes :=
  if cap = 0 then .ok [] s
  else if s = [] then .timeout
  else unescapeChunk (s.take (min cap s.length)) (s.drop (min cap s.length))

/-- Loop body of `FLARM::ReceiveEscaped`: repeatedly call `ReceiveSomeUnescape`
into the unfilled suffix of the destination until it is full.  The first
argument is fuel bounding the number of loop iterations (each successful
iteration decodes at least one byte, so `cap` iterations always suffice;
exhausted fuel corresponds to the deadline expiring). -/
def ReceiveEscapedGo : Nat → Nat → List Nat → UnRes
  | _, 0, s => .ok [] s
  | 0, _ + 1, _ => .timeout
  | fuel + 1, cap + 1, s =>
    match ReceiveSomeUnescape (cap + 1) s with
    | .timeout => .timeout
    | .bad r => .bad r
    | .ok out s' => consOutList out (ReceiveEscapedGo fuel (cap + 1 - out.length) s')

namespace FLARM

/-- Embedding of `FLARM::ReceiveEscaped`: decode exactly `cap` bytes from the
wire `s`.  `.ok out rest` models a `true` return with `out` in the caller's
buffer, `.bad rest` a `false` return, `.timeout` a `DeviceTimeout` exception. -/
def ReceiveEscaped (cap : Nat) (s : List Nat) : UnRes :=
  ReceiveEscapedGo cap cap s

end FLARM

namespace FLARM

/-- Modelled from the spec: the message-type enumeration lives in `Device.hpp`,
which is not among the sources; the spec names PING, EXIT/RESET, ACK, NACK and
a zeroed "no match" sentinel.  Concrete values are irrelevant to the claims
beyond being pairwise distinct 8-bit values. -/
def MT_ERROR : Nat := 0x00

/-- Modelled from the spec: see `MT_ERROR`. -/
def MT_PING : Nat := 0x01

/-- Modelled from the spec: see `MT_ERROR`. -/
def MT_EXIT : Nat := 0x12

/-- Modelled from the spec: see `MT_ERROR`. -/
def MT_ACK : Nat := 0xA0

/-- Modelled from the spec: see `MT_ERROR`. -/
def MT_NACK : Nat := 0xB4

/-- Modelled from the spec: the fixed-layout 8-byte frame header declared in
`Device.hpp` (`length:uint16`, `version:uint8`, `sequence_number:uint16`,
`type:uint8`, `crc:uint16`, all little-endian on the wire, 8 bytes total as
witnessed by `header.length = 8 + length` in `FLARM::PrepareFrameHeader`). -/
structure FrameHeader where
  length : Nat
  version : Nat
  sequence_number : Nat
  type : Nat
  crc : Nat
deriving DecidableEq, Repr

/-- Fields of a frame header are in range for their wire representation. -/
def FrameHeader.WF (h : FrameHeader) : Prop :=
  h.length < 65536 ∧ h.version < 256 ∧ h.sequence_number < 65536 ∧
    h.type < 256 ∧ h.crc < 65536

instance (h : FrameHeader) : Decidable h.WF := by
  unfold FrameHeader.WF; infer_instance

/-- Little-endian two-byte representation of a 16-bit value. -/
def le16 (n : Nat) : List Nat := [n % 256, n / 256 % 256]

/-- Little-endian 16-bit value of the first two payload bytes (the C++
`FromLE16(*(const uint16_t *)data.data())`). -/
def fromLE16 (p : List Nat) : Nat := p.getD 0 0 + 256 * p.getD 1 0

/-- Byte serialization of a frame header (the raw memory that
`FLARM::SendEscaped(&header, sizeof(header))` reads). -/
def headerBytes (h : FrameHeader) : List Nat :=
  le16 h.length ++ [h.version % 256] ++ le16 h.sequence_number ++
    [h.type % 256] ++ le16 h.crc

/-- Byte deserialization of a frame header (the raw memory that
`FLARM::ReceiveEscaped(&header, sizeof(header))` fills). -/
def parseHeader (bs : List Nat) : FrameHeader :=
  { length := bs.getD 0 0 + 256 * bs.getD 1 0
    version := bs.getD 2 0
    sequence_number := bs.getD 3 0 + 256 * bs.getD 4 0
    type := bs.getD 5 0
    crc := bs.getD 6 0 + 256 * bs.getD 7 0 }

/-- One shift-and-conditionally-XOR round of the CRC-16-CCITT update. -/
def crc16Round (crc : Nat) : Nat :=
  if crc &&& 0x8000 ≠ 0 then ((crc <<< 1) ^^^ 0x1021) % 65536
  else (crc <<< 1) % 65536

/-- Fold one byte into a CRC-16-CCITT accumulator. -/
def crc16Update (crc b : Nat) : Nat :=
  crc16Round^[8] (crc ^^^ (b % 256 <<< 8))

/-- CRC-16 of a byte sequence, initial value 0. -/
def crc16 (bs : List Nat) : Nat := bs.foldl crc16Update 0

/-- Modelled from the spec: `CalculateCRC` lives in `CRC16.hpp`, which is not
among the sources.  Per the spec it is the 16-bit integrity code "computed over
the header with the crc field itself zeroed, concatenated with the payload
bytes"; a CRC-16-CCITT is used as the concrete 16-bit function. -/
def CalculateCRC (h : FrameHeader) (payload : List Nat) : Nat :=
  crc16 (headerBytes { h with crc := 0 } ++ payload)

/-- Embedding of `FLARM::PrepareFrameHeader`: build a header for one outbound
message.  The post-increment of the `sequence_number` parameter mutates only
the local copy; the caller-counter advance happens in
`FlarmDevice::PrepareFrameHeader`.  The `uint16` fields truncate mod 2^16. -/
def PrepareFrameHeader (sequence_number : Nat) (message_type : Nat)
    (payload : List Nat) : FrameHeader :=
  let h : FrameHeader :=
    { length := (8 + payload.length) % 65536
      version := 0
      sequence_number := sequence_number % 65536
      type := message_type % 256
      crc := 0 }
  { h with crc := CalculateCRC h payload }

end FLARM

/-- Modelled from the spec: the `FlarmDevice` connection state; the only piece
the protocol core needs is the process-lifetime 16-bit sequence counter
("incremented after each outbound command is framed"). -/
structure FlarmDevice where
  sequence_number : Nat
deriving DecidableEq, Repr

namespace FlarmDevice

/-- Embedding of `FlarmDevice::PrepareFrameHeader`: frame a message with the
current counter value (`sequence_number++`), returning the header and the
device with the advanced counter. -/
def PrepareFrameHeader (d : FlarmDevice) (message_type : Nat)
    (payload : List Nat) : FLARM.FrameHeader × FlarmDevice :=
  (FLARM.PrepareFrameHeader d.sequence_number message_type payload,
    ⟨(d.sequence_number + 1) % 65536⟩)

end FlarmDevice

/-- Embedding of `Port::WaitForByte` (via `FlarmDevice::WaitForStartByte`):
consume and discard wire bytes until `v` is seen (consuming it too); an
exhausted wire means the deadline passes (`DeviceTimeout`). -/
def waitForByte (v : Nat) (s : List Nat) : Option (List Nat) :=
  match s.dropWhile (· ≠ v) with
  | [] => none
  | _ :: rest => some rest

/-- Outcome of one iteration of the receive loop in
`FlarmDevice::WaitForACKOrNACK`: `timeout` models a `DeviceTimeout` exception
escaping from a blocking port call, `rejected rest` a `continue` back to
waiting for a start byte with `rest` still on the wire, `matched t rest` the
`return (FLARM::MessageType)header.type` path. -/
inductive WaitStep where
  | timeout : WaitStep
  | rejected (rest : List Nat) : WaitStep
  | matched (t : Nat) (rest : List Nat) : WaitStep
deriving DecidableEq, Repr

namespace FlarmDevice

/-- Embedding of one iteration of the `while (!timeout.HasExpired())` loop of
`FlarmDevice::WaitForACKOrNACK`: wait for a start byte, decode the 8 header
bytes, validate `length <= sizeof(header)`, decode the payload, verify the
CRC, check the message type, the payload length and the sequence number. -/
def waitIteration (sequence_number : Nat) (s : List Nat) : WaitStep :=
  match waitForByte FLARM.START_FRAME s with
  | none => .timeout
  | some s1 =>
    match FLARM.ReceiveEscaped 8 s1 with
    | .timeout => .timeout
    | .bad s2 => .rejected s2
    | .ok hb s2 =>
      let header := FLARM.parseHeader hb
      if header.length ≤ 8 then .rejected s2
      else
        let length := header.length - 8
        match FLARM.ReceiveEscaped length s2 with
        | .timeout => .timeout
        | .bad s3 => .rejected s3
        | .ok data s3 =>
          if header.crc ≠ FLARM.CalculateCRC header data then .rejected s3
          else if header.type ≠ FLARM.MT_ACK ∧ header.type ≠ FLARM.MT_NACK then
            .rejected s3
          else if length < 2 then .rejected s3
          else if FLARM.fromLE16 data = sequence_number then
            .matched header.type s3
          else .rejected s3

/-- Result of `FlarmDevice::WaitForACKOrNACK`: either a `DeviceTimeout`
exception escaping from a blocking port call, or a normal return value
(`FLARM::MT_ERROR` once the loop deadline has expired). -/
inductive WaitResult where
  | timedOut : WaitResult
  | result (t : Nat) : WaitResult
deriving DecidableEq, Repr

/-- Embedding of `FlarmDevice::WaitForACKOrNACK`: iterate `waitIteration`
until a frame is matched.  `fuel` is the number of loop iterations the
remaining timeout budget still allows; exhausted fuel is the
`timeout.HasExpired()` exit returning `FLARM::MT_ERROR`. -/
def WaitForACKOrNACK (sequence_number : Nat) : Nat → List Nat → WaitResult
  | 0, _ => .result FLARM.MT_ERROR
  | fuel + 1, s =>
    match waitIteration sequence_number s with
    | .timeout => .timedOut
    | .matched t _ => .result t
    | .rejected s' => WaitForACKOrNACK sequence_number fuel s'

/-- Embedding of `FlarmDevice::WaitForACK`: true exactly on an ACK match (a
`DeviceTimeout` exception propagates through it). -/
def WaitForACK (sequence_number : Nat) (fuel : Nat) (s : List Nat) :
    Option Bool :=
  match WaitForACKOrNACK sequence_number fuel s with
  | .timedOut => none
  | .result t => some (t == FLARM.MT_ACK)

/-- Embedding of `FlarmDevice::BinaryPing`: build a zero-payload PING header,
send the start byte and the escaped header, wait for a matching ACK; the
`catch (const DeviceTimeout &)` turns a timeout into `false`.  Returns the
result, the advanced device state and the bytes written to the port. -/
def BinaryPing (d : FlarmDevice) (fuel : Nat) (rx : List Nat) :
    Bool × FlarmDevice × List Nat :=
  let hd := PrepareFrameHeader d FLARM.MT_PING []
  let sent := FLARM.START_FRAME :: FLARM.SendEscaped (FLARM.headerBytes hd.1)
  let ok :=
    match WaitForACK hd.1.sequence_number fuel rx with
    | none => false
    | some b => b
  (ok, hd.2, sent)

end FlarmDevice

/-- Byte stream one complete frame puts on the wire, as sent by
`FlarmDevice::SendStartByte` (the literal, unescaped start marker) followed by
`FlarmDevice::SendFrameHeader` (the escaped header bytes) and the escaped
payload bytes. -/
def frameBytes (h : FLARM.FrameHeader) (p : List Nat) : List Nat :=
  FLARM.START_FRAME :: (FLARM.escAll (FLARM.headerBytes h) ++ FLARM.escAll p)

/-- Outcome of the timed skeleton of `FlarmDevice::WaitForACKOrNACK`:
`timedOut` models a `DeviceTimeout` exception from a blocking call whose
budget ran out, `noMatch` the `return FLARM::MT_ERROR` taken when
`timeout.HasExpired()` ends the loop, `matched t` the accepting return. -/
inductive TimedOutcome where
  | timedOut : TimedOutcome
  | noMatch : TimedOutcome
  | matched (t : Nat) : TimedOutcome
deriving DecidableEq, Repr

/-- Modelled from the spec: `TimeoutClock` (`time/TimeoutClock.hpp`) is not
among the sources.  A wait operation computes the absolute deadline `endT`
once; each blocking call is handed only `GetRemainingOrZero()`, i.e. the
budget `endT - now`.  `runCalls` executes the blocking port calls of one loop
iteration: a call whose awaited event needs `need` time units succeeds and
consumes them if they fit in the remaining budget, otherwise the call blocks
until the deadline and fails (`DeviceTimeout`). -/
def runCalls (endT : Nat) : Nat → List Nat → Nat × Bool
  | now, [] => (now, true)
  | now, need :: rest =>
    if need ≤ endT - now then runCalls endT (now + need) rest
    else (now + (endT - now), false)

/-- Timed skeleton of the `while (!timeout.HasExpired())` loop of
`FlarmDevice::WaitForACKOrNACK`.  Each list entry describes one received
frame: the durations of the blocking port calls spent on it and `some t` if
it passes every check (match of type `t`) or `none` if it is rejected
(corrupted, wrong type, wrong sequence number).  An exhausted entry list
stands for a wire that stays silent: the next blocking call runs into the
deadline.  `HasExpired` is modelled as an exhausted budget (`endT ≤ now`). -/
def timedWait (endT : Nat) : Nat → List (List Nat × Option Nat) → Nat × TimedOutcome
  | now, [] => if endT ≤ now then (now, .noMatch) else (endT, .timedOut)
  | now, (needs, dec) :: evs =>
    if endT ≤ now then (now, .noMatch)
    else if (runCalls endT now needs).2 then
      match dec with
      | some t => ((runCalls endT now needs).1, .matched t)
      | none => timedWait endT (runCalls endT now needs).1 evs
    else ((runCalls endT now needs).1, .timedOut)

/-- Recognizer for the invalid-escape failure of the codec (the `nullptr`
return of `ReceiveSomeUnescape`, surfaced as `false` by
`FLARM::ReceiveEscaped`). -/
def UnRes.isBad : UnRes → Bool
  | .bad _ => true
  | _ => false

/-- An encoded stream contains no unescaped reserved byte: no literal
`START_FRAME` anywhere, and every `ESCAPE` is immediately followed by
`ESCAPE_START` or `ESCAPE_ESCAPE`. -/
def wellEscaped : List Nat → Bool
  | [] => true
  | b :: rest =>
    if b = FLARM.START_FRAME then false
    else if b = FLARM.ESCAPE then
      match rest with
      | [] => false
      | c :: rest' =>
        ((c == FLARM.ESCAPE_START) || (c == FLARM.ESCAPE_ESCAPE)) &&
          wellEscaped rest'
    else wellEscaped rest

namespace FLARM

lemma escapeByte_ne_nil (x : Nat) : escapeByte x ≠ [] := by
  unfold escapeByte
  split
  · simp
  · split <;> simp

lemma one_le_length_escapeByte (x : Nat) : 1 ≤ (escapeByte x).length := by
  unfold escapeByte
  split
  · simp
  · split <;> simp

lemma escAll_nil : escAll [] = [] := rfl

lemma escAll_cons (x : Nat) (b : List Nat) :
    escAll (x :: b) = escapeByte x ++ escAll b := by
  simp [escAll]

lemma escAll_append (a b : List Nat) :
    escAll (a ++ b) = escAll a ++ escAll b := by
  simp [escAll]

lemma escAll_ne_nil {b : List Nat} (hb : b ≠ []) : escAll b ≠ [] := by
  cases b with
  | nil => exact absurd rfl hb
  | cons x b' => simp [escAll_cons, escapeByte_ne_nil]

lemma length_le_escAll (b : List Nat) : b.length ≤ (escAll b).length := by
  induction b with
  | nil => simp [escAll]
  | cons x b ih =>
    have h1 := one_le_length_escapeByte x
    simp only [escAll_cons, List.length_append, List.length_cons]
    omega

lemma take_FindSpecial_harmless (bs : List Nat) :
    ∀ x ∈ bs.take (FindSpecial bs), ¬(x = START_FRAME ∨ x = ESCAPE) := by
  induction bs with
  | nil => simp
  | cons y bs ih =>
    by_cases h : y = START_FRAME ∨ y = ESCAPE
    · simp [FindSpecial, h]
    · simp only [FindSpecial, h, if_false, List.take_succ_cons, List.mem_cons]
      rintro x (rfl | hx)
      · exact h
      · exact ih x hx

lemma escAll_of_harmless {l : List Nat}
    (h : ∀ x ∈ l, ¬(x = START_FRAME ∨ x = ESCAPE)) : escAll l = l := by
  induction l with
  | nil => rfl
  | cons x l ih =>
    have hx := h x (by simp)
    push_neg at hx
    simp [escAll_cons, escapeByte, hx.1, hx.2,
      ih (fun y hy => h y (by simp [hy]))]

lemma SendEscaped_drop_nil (bs : List Nat)
    (hk : bs.drop (FindSpecial bs) = []) :
    SendEscaped bs = bs.take (FindSpecial bs) := by
  rw [SendEscaped]
  split
  · rfl
  · next b rest h =>
    rw [hk] at h
    exact absurd h (by simp)

lemma SendEscaped_drop_cons (bs : List Nat) (b : Nat) (rest : List Nat)
    (hk : bs.drop (FindSpecial bs) = b :: rest) :
    SendEscaped bs = bs.take (FindSpecial bs) ++ escapeByte b ++ SendEscaped rest := by
  rw [SendEscaped]
  split
  · next h =>
    rw [hk] at h
    exact absurd h (by simp)
  · next b' rest' h =>
    rw [hk] at h
    injection h with h1 h2
    subst h1
    subst h2
    simp [escapeByte]

/-- The run-splitting loop of `FLARM::SendEscaped` writes exactly the
concatenated per-byte escaping of its input. -/
lemma SendEscaped_eq_escAll (bs : List Nat) : SendEscaped bs = escAll bs := by
  induction bs using SendEscaped.induct with
  | case1 bs k hk =>
    rw [SendEscaped_drop_nil bs hk]
    have hlen := congrArg List.length hk
    simp only [List.length_drop, List.length_nil] at hlen
    have htake : bs.take (FindSpecial bs) = bs := List.take_of_length_le (by omega)
    have hh : ∀ x ∈ bs, ¬(x = START_FRAME ∨ x = ESCAPE) := by
      intro x hx
      exact take_FindSpecial_harmless bs x (by rw [htake]; exact hx)
    rw [escAll_of_harmless hh, htake]
  | case2 bs k b rest hk ih =>
    rw [SendEscaped_drop_cons bs b rest hk]
    have hbs : bs.take (FindSpecial bs) ++ (b :: rest) = bs := by
      conv_rhs => rw [← List.take_append_drop (FindSpecial bs) bs]
      rw [hk]
    conv_rhs => rw [← hbs]
    rw [escAll_append, escAll_cons,
      escAll_of_harmless (take_FindSpecial_harmless bs), ih]
    simp [List.append_assoc]

lemma unescapeChunk_nil (s : List Nat) : unescapeChunk [] s = .ok [] s := rfl

lemma unescapeChunk_cons_harmless {c : Nat} (hc : c ≠ ESCAPE)
    (rest s : List Nat) :
    unescapeChunk (c :: rest) s = consOut c (unescapeChunk rest s) := by
  rw [unescapeChunk.eq_def]
  simp [hc]

lemma unescapeChunk_esc_start (rest' s : List Nat) :
    unescapeChunk (ESCAPE :: ESCAPE_START :: rest') s =
      consOut START_FRAME (unescapeChunk rest' s) := by
  rw [unescapeChunk.eq_def]
  simp

lemma unescapeChunk_esc_esc (rest' s : List Nat) :
    unescapeChunk (ESCAPE :: ESCAPE_ESCAPE :: rest') s =
      consOut ESCAPE (unescapeChunk rest' s) := by
  have hSS : ESCAPE_ESCAPE ≠ ESCAPE_START := by decide
  rw [unescapeChunk.eq_def]
  simp [hSS]

lemma unescapeChunk_esc_end_start (s' : List Nat) :
    unescapeChunk [ESCAPE] (ESCAPE_START :: s') = .ok [START_FRAME] s' := by
  rw [unescapeChunk.eq_def]
  simp

lemma unescapeChunk_esc_end_esc (s' : List Nat) :
    unescapeChunk [ESCAPE] (ESCAPE_ESCAPE :: s') = .ok [ESCAPE] s' := by
  have hSS : ESCAPE_ESCAPE ≠ ESCAPE_START := by decide
  rw [unescapeChunk.eq_def]
  simp [hSS]

lemma escAll_start_frame_cons (b : List Nat) :
    escAll (START_FRAME :: b) = ESCAPE :: ESCAPE_START :: escAll b := by
  simp [escAll_cons, escapeByte]

lemma escAll_escape_cons (b : List Nat) :
    escAll (ESCAPE :: b) = ESCAPE :: ESCAPE_ESCAPE :: escAll b := by
  have hne : ESCAPE ≠ START_FRAME := by decide
  simp [escAll_cons, escapeByte, hne]

lemma escAll_harmless_cons {x : Nat} (hx1 : x ≠ START_FRAME) (hx2 : x ≠ ESCAPE)
    (b : List Nat) : escAll (x :: b) = x :: escAll b := by
  simp [escAll_cons, escapeByte, hx1, hx2]

/-- Decoding any `Port::WaitAndRead` chunk cut out of an escaped stream
succeeds and yields a prefix of the original bytes, leaving the escaping of
the remaining suffix (plus any unrelated tail `t`) on the wire.  At least one
byte is decoded whenever the chunk is nonempty. -/
lemma unescapeChunk_escAll (b t : List Nat) (n : Nat) :
    ∃ i, i ≤ b.length ∧ i ≤ n ∧ (b ≠ [] → 1 ≤ n → 1 ≤ i) ∧
      unescapeChunk ((escAll b).take n) ((escAll b).drop n ++ t) =
        .ok (b.take i) (escAll (b.drop i) ++ t) := by
  induction b generalizing n with
  | nil =>
    refine ⟨0, by simp, by simp, by simp, ?_⟩
    simp [escAll_nil, unescapeChunk_nil]
  | cons x b ih =>
    match n with
    | 0 =>
      refine ⟨0, by simp, le_refl 0, by simp, ?_⟩
      simp [unescapeChunk_nil]
    | n + 1 =>
      by_cases hx1 : x = START_FRAME
      · subst hx1
        rw [escAll_start_frame_cons]
        match n with
        | 0 =>
          refine ⟨1, by simp, le_refl 1, fun _ _ => le_refl 1, ?_⟩
          simp only [List.take_succ_cons, List.take_zero, List.drop_succ_cons,
            List.drop_zero, List.cons_append]
          rw [unescapeChunk_esc_end_start]
        | m + 1 =>
          obtain ⟨i, hi1, hi2, _, heq⟩ := ih m
          refine ⟨i + 1, by simp; omega, by omega, fun _ _ => by omega, ?_⟩
          simp only [List.take_succ_cons, List.drop_succ_cons]
          rw [unescapeChunk_esc_start, heq]
          simp [consOut]
      · by_cases hx2 : x = ESCAPE
        · subst hx2
          rw [escAll_escape_cons]
          match n with
          | 0 =>
            refine ⟨1, by simp, le_refl 1, fun _ _ => le_refl 1, ?_⟩
            simp only [List.take_succ_cons, List.take_zero, List.drop_succ_cons,
              List.drop_zero, List.cons_append]
            rw [unescapeChunk_esc_end_esc]
          | m + 1 =>
            obtain ⟨i, hi1, hi2, _, heq⟩ := ih m
            refine ⟨i + 1, by simp; omega, by omega, fun _ _ => by omega, ?_⟩
            simp only [List.take_succ_cons, List.drop_succ_cons]
            rw [unescapeChunk_esc_esc, heq]
            simp [consOut]
        · rw [escAll_harmless_cons hx1 hx2]
          obtain ⟨i, hi1, hi2, _, heq⟩ := ih n
          refine ⟨i + 1, by simp; omega, by omega, fun _ _ => by omega, ?_⟩
          simp only [List.take_succ_cons, List.drop_succ_cons]
          rw [unescapeChunk_cons_harmless hx2, heq]
          simp [consOut]

end FLARM

namespace FLARM

/-- One `Port::WaitAndRead` round on an escaped stream (with arbitrary tail)
decodes a nonempty prefix of the original bytes. -/
lemma ReceiveSomeUnescape_escAll (b t : List Nat) (cap : Nat)
    (hcap0 : 1 ≤ cap) (hcap : cap ≤ b.length) :
    ∃ i, 1 ≤ i ∧ i ≤ cap ∧ i ≤ b.length ∧
      ReceiveSomeUnescape cap (escAll b ++ t) =
        .ok (b.take i) (escAll (b.drop i) ++ t) := by
  have hb : b ≠ [] := by
    intro h
    subst h
    simp at hcap
    omega
  have hne : ¬(escAll b ++ t = []) := by
    simp [escAll_ne_nil hb]
  unfold ReceiveSomeUnescape
  rw [if_neg (by omega : ¬cap = 0), if_neg hne]
  have hnle : min cap (escAll b ++ t).length ≤ (escAll b).length :=
    le_trans (min_le_left _ _) (le_trans hcap (length_le_escAll b))
  rw [List.take_append_of_le_length hnle, List.drop_append_of_le_length hnle]
  have hn1 : 1 ≤ min cap (escAll b ++ t).length := by
    have h1 : 1 ≤ (escAll b).length := by
      have := length_le_escAll b
      have : 1 ≤ b.length := by
        cases b with
        | nil => exact absurd rfl hb
        | cons _ _ => simp
      omega
    simp only [List.length_append]
    omega
  obtain ⟨i, hi1, hi2, hpos, heq⟩ := unescapeChunk_escAll b t (min cap (escAll b ++ t).length)
  exact ⟨i, hpos hb hn1, le_trans hi2 (min_le_left _ _), hi1, heq⟩

/-- The receive loop of `FLARM::ReceiveEscaped` decodes an escaped stream back
to the original bytes, leaving any unrelated tail on the wire, as long as the
fuel covers the (at most `b.length`) loop iterations. -/
lemma ReceiveEscapedGo_escAll (fuel : Nat) :
    ∀ b t : List Nat, b.length ≤ fuel →
      ReceiveEscapedGo fuel b.length (escAll b ++ t) = .ok b t := by
  induction fuel with
  | zero =>
    intro b t hb
    have hbnil : b = [] := List.length_eq_zero.mp (Nat.le_zero.mp hb)
    subst hbnil
    simp [escAll_nil, ReceiveEscapedGo]
  | succ fuel ih =>
    intro b t hb
    cases b with
    | nil => simp [escAll_nil, ReceiveEscapedGo]
    | cons x b' =>
      obtain ⟨i, hi1, hi2, hi3, heq⟩ :=
        ReceiveSomeUnescape_escAll (x :: b') t (b'.length + 1) (by omega) (by simp)
      simp only [List.length_cons]
      simp only [ReceiveEscapedGo, heq]
      have hlen_take : ((x :: b').take i).length = i := by
        rw [List.length_take]
        simp only [List.length_cons] at hi3 ⊢
        omega
      rw [hlen_take]
      have harith : b'.length + 1 - i = ((x :: b').drop i).length := by
        rw [List.length_drop]
        simp only [List.length_cons]
      rw [harith]
      rw [ih ((x :: b').drop i) t
        (by rw [List.length_drop]; simp only [List.length_cons] at hb ⊢; omega)]
      simp [consOutList]

/-- Round trip at the `FLARM::ReceiveEscaped` level, with an arbitrary tail
left on the wire after the escaped bytes. -/
lemma ReceiveEscaped_escAll (b t : List Nat) :
    ReceiveEscaped b.length (escAll b ++ t) = .ok b t :=
  ReceiveEscapedGo_escAll b.length b t (le_refl _)

end FLARM

namespace FLARM

lemma unescapeChunk_esc_end_bad {x : Nat} (hx1 : x ≠ ESCAPE_START)
    (hx2 : x ≠ ESCAPE_ESCAPE) (s' : List Nat) :
    unescapeChunk [ESCAPE] (x :: s') = .bad s' := by
  rw [unescapeChunk.eq_def]
  simp [hx1, hx2]

lemma unescapeChunk_esc_bad {x : Nat} (hx1 : x ≠ ESCAPE_START)
    (hx2 : x ≠ ESCAPE_ESCAPE) (c' s : List Nat) :
    unescapeChunk (ESCAPE :: x :: c') s = .bad s := by
  rw [unescapeChunk.eq_def]
  simp [hx1, hx2]

/-- A `Port::WaitAndRead` chunk that reaches an `ESCAPE` followed by a byte
that is neither escape replacement makes the unescape loop fail, whether the
offending pair lies inside the chunk or across its end. -/
lemma unescapeChunk_badTail {x : Nat} (hx1 : x ≠ ESCAPE_START)
    (hx2 : x ≠ ESCAPE_ESCAPE) (b rest : List Nat) :
    ∀ n : Nat, (escAll b).length < n →
      ∃ r, unescapeChunk ((escAll b ++ ESCAPE :: x :: rest).take n)
        ((escAll b ++ ESCAPE :: x :: rest).drop n) = .bad r := by
  induction b with
  | nil =>
    intro n hn
    simp only [escAll_nil, List.length_nil, List.nil_append] at hn ⊢
    match n, hn with
    | 1, _ =>
      refine ⟨rest, ?_⟩
      simp only [List.take_succ_cons, List.take_zero, List.drop_succ_cons,
        List.drop_zero]
      exact unescapeChunk_esc_end_bad hx1 hx2 rest
    | m + 2, _ =>
      refine ⟨rest.drop m, ?_⟩
      simp only [List.take_succ_cons, List.drop_succ_cons]
      exact unescapeChunk_esc_bad hx1 hx2 (rest.take m) (rest.drop m)
  | cons y b' ih =>
    intro n hn
    by_cases hy1 : y = START_FRAME
    · subst hy1
      rw [escAll_start_frame_cons] at hn ⊢
      simp only [List.length_cons] at hn
      obtain ⟨m, rfl⟩ : ∃ m, n = m + 2 := ⟨n - 2, by omega⟩
      simp only [List.cons_append, List.take_succ_cons, List.drop_succ_cons]
      obtain ⟨r, hr⟩ := ih m (by omega)
      refine ⟨r, ?_⟩
      rw [unescapeChunk_esc_start, hr]
      rfl
    · by_cases hy2 : y = ESCAPE
      · subst hy2
        rw [escAll_escape_cons] at hn ⊢
        simp only [List.length_cons] at hn
        obtain ⟨m, rfl⟩ : ∃ m, n = m + 2 := ⟨n - 2, by omega⟩
        simp only [List.cons_append, List.take_succ_cons, List.drop_succ_cons]
        obtain ⟨r, hr⟩ := ih m (by omega)
        refine ⟨r, ?_⟩
        rw [unescapeChunk_esc_esc, hr]
        rfl
      · rw [escAll_harmless_cons hy1 hy2] at hn ⊢
        simp only [List.length_cons] at hn
        obtain ⟨m, rfl⟩ : ∃ m, n = m + 1 := ⟨n - 1, by omega⟩
        simp only [List.cons_append, List.take_succ_cons, List.drop_succ_cons]
        obtain ⟨r, hr⟩ := ih m (by omega)
        refine ⟨r, ?_⟩
        rw [unescapeChunk_cons_harmless hy2, hr]
        rfl

/-- The receive loop fails with the invalid-escape sentinel when the wire
carries a correctly escaped prefix followed by an invalid escape pair, as soon
as the destination asks for more bytes than the prefix decodes to. -/
lemma ReceiveEscapedGo_badTail {x : Nat} (hx1 : x ≠ ESCAPE_START)
    (hx2 : x ≠ ESCAPE_ESCAPE) (rest : List Nat) :
    ∀ fuel cap (b : List Nat), cap ≤ fuel → b.length < cap →
      ∃ r, ReceiveEscapedGo fuel cap (escAll b ++ ESCAPE :: x :: rest) = .bad r := by
  intro fuel
  induction fuel with
  | zero =>
    intro cap b hf hc
    omega
  | succ fuel ih =>
    intro cap b hf hc
    match cap, hc with
    | c + 1, hc =>
      have hs : escAll b ++ ESCAPE :: x :: rest ≠ [] := by
        cases b with
        | nil => simp [escAll_nil]
        | cons _ _ => simp
      have hslen : 1 ≤ (escAll b ++ ESCAPE :: x :: rest).length := by
        simp only [List.length_append, List.length_cons]
        omega
      by_cases hcase : min (c + 1) (escAll b ++ ESCAPE :: x :: rest).length ≤ (escAll b).length
      · -- the chunk stays inside the escaped prefix
        have hb : b ≠ [] := by
          intro hbe
          subst hbe
          simp only [escAll_nil, List.length_nil, List.nil_append,
            List.length_cons] at hcase
          omega
        have hru : ReceiveSomeUnescape (c + 1) (escAll b ++ ESCAPE :: x :: rest) =
            unescapeChunk ((escAll b).take (min (c + 1) (escAll b ++ ESCAPE :: x :: rest).length))
              ((escAll b).drop (min (c + 1) (escAll b ++ ESCAPE :: x :: rest).length) ++ ESCAPE :: x :: rest) := by
          unfold ReceiveSomeUnescape
          rw [if_neg (by omega : ¬c + 1 = 0), if_neg hs,
            List.take_append_of_le_length hcase, List.drop_append_of_le_length hcase]
        obtain ⟨i, hi1, hi2, hpos, heq⟩ :=
          unescapeChunk_escAll b (ESCAPE :: x :: rest)
            (min (c + 1) (escAll b ++ ESCAPE :: x :: rest).length)
        have hn1 : 1 ≤ min (c + 1) (escAll b ++ ESCAPE :: x :: rest).length := by
          omega
        have hipos : 1 ≤ i := hpos hb hn1
        simp only [ReceiveEscapedGo, hru, heq]
        have hlen_take : (b.take i).length = i := by
          rw [List.length_take]
          omega
        rw [hlen_take]
        obtain ⟨r, hr⟩ := ih (c + 1 - i) (b.drop i) (by omega)
          (by rw [List.length_drop]; omega)
        refine ⟨r, ?_⟩
        rw [hr]
        rfl
      · -- the chunk reaches the invalid escape pair
        push_neg at hcase
        have hru : ReceiveSomeUnescape (c + 1) (escAll b ++ ESCAPE :: x :: rest) =
            unescapeChunk ((escAll b ++ ESCAPE :: x :: rest).take (min (c + 1) (escAll b ++ ESCAPE :: x :: rest).length))
              ((escAll b ++ ESCAPE :: x :: rest).drop (min (c + 1) (escAll b ++ ESCAPE :: x :: rest).length)) := by
          unfold ReceiveSomeUnescape
          rw [if_neg (by omega : ¬c + 1 = 0), if_neg hs]
        obtain ⟨r, hr⟩ := unescapeChunk_badTail hx1 hx2 b rest
          (min (c + 1) (escAll b ++ ESCAPE :: x :: rest).length) hcase
        refine ⟨r, ?_⟩
        simp only [ReceiveEscapedGo, hru, hr]

/-- Invalid escape pair behind a correctly escaped prefix: the whole
`FLARM::ReceiveEscaped` call fails (returns `false`) as soon as the
destination asks for more bytes than the prefix decodes to. -/
lemma ReceiveEscaped_badTail {x : Nat} (hx1 : x ≠ ESCAPE_START)
    (hx2 : x ≠ ESCAPE_ESCAPE) (b rest : List Nat) (cap : Nat)
    (hc : b.length < cap) :
    ∃ r, ReceiveEscaped cap (escAll b ++ ESCAPE :: x :: rest) = .bad r :=
  ReceiveEscapedGo_badTail hx1 hx2 rest cap cap b (le_refl cap) hc

end FLARM

namespace FLARM

lemma headerBytes_length (h : FrameHeader) : (headerBytes h).length = 8 := rfl

/-- Reading back the 8 serialized header bytes reconstructs the header. -/
lemma parseHeader_headerBytes (h : FrameHeader) (hwf : h.WF) :
    parseHeader (headerBytes h) = h := by
  obtain ⟨h1, h2, h3, h4, h5⟩ := hwf
  cases h with
  | mk l v sq ty c =>
    simp only [FrameHeader.WF] at h1 h2 h3 h4 h5
    simp [parseHeader, headerBytes, le16, List.getD]
    omega

lemma ReceiveEscaped_headerBytes (h : FrameHeader) (t : List Nat) :
    ReceiveEscaped 8 (escAll (headerBytes h) ++ t) = .ok (headerBytes h) t := by
  have h8 : (headerBytes h).length = 8 := rfl
  conv_lhs => rw [← h8]
  exact ReceiveEscaped_escAll (headerBytes h) t

end FLARM

lemma waitForByte_cons_start (s : List Nat) :
    waitForByte FLARM.START_FRAME (FLARM.START_FRAME :: s) = some s := by
  simp [waitForByte]

namespace FlarmDevice

/-- A frame whose header announces `length <= sizeof(header)` is rejected by
the length validation before its payload is consumed. -/
lemma waitIteration_frame_short (seq : Nat) (h : FLARM.FrameHeader)
    (p rest : List Nat) (hwf : h.WF) (hlen : h.length ≤ 8) :
    waitIteration seq (frameBytes h p ++ rest) =
      .rejected (FLARM.escAll p ++ rest) := by
  simp only [waitIteration, frameBytes, List.cons_append, List.append_assoc,
    waitForByte_cons_start, FLARM.ReceiveEscaped_headerBytes,
    FLARM.parseHeader_headerBytes h hwf]
  rw [if_pos hlen]

/-- Processing one complete well-formed frame at the head of the wire: the
start byte, header and payload are consumed, and the outcome is decided by
the CRC, message-type, payload-length and sequence-number checks. -/
lemma waitIteration_frame (seq : Nat) (h : FLARM.FrameHeader)
    (p rest : List Nat) (hwf : h.WF) (hlen : h.length = 8 + p.length)
    (hgt : 8 < h.length) :
    waitIteration seq (frameBytes h p ++ rest) =
      if h.crc ≠ FLARM.CalculateCRC h p then .rejected rest
      else if h.type ≠ FLARM.MT_ACK ∧ h.type ≠ FLARM.MT_NACK then .rejected rest
      else if p.length < 2 then .rejected rest
      else if FLARM.fromLE16 p = seq then .matched h.type rest
      else .rejected rest := by
  simp only [waitIteration, frameBytes, List.cons_append, List.append_assoc,
    waitForByte_cons_start, FLARM.ReceiveEscaped_headerBytes,
    FLARM.parseHeader_headerBytes h hwf]
  rw [if_neg (by omega : ¬h.length ≤ 8)]
  rw [show h.length - 8 = p.length by omega]
  simp only [FLARM.ReceiveEscaped_escAll]

end FlarmDevice

namespace FLARM

lemma wellEscaped_esc_start_cons (l : List Nat) :
    wellEscaped (ESCAPE :: ESCAPE_START :: l) = wellEscaped l := by
  rw [wellEscaped.eq_def]
  have h1 : ESCAPE ≠ START_FRAME := by decide
  simp [h1]

lemma wellEscaped_esc_esc_cons (l : List Nat) :
    wellEscaped (ESCAPE :: ESCAPE_ESCAPE :: l) = wellEscaped l := by
  rw [wellEscaped.eq_def]
  have h1 : ESCAPE ≠ START_FRAME := by decide
  simp [h1]

lemma wellEscaped_harmless_cons {x : Nat} (hx1 : x ≠ START_FRAME)
    (hx2 : x ≠ ESCAPE) (l : List Nat) :
    wellEscaped (x :: l) = wellEscaped l := by
  rw [wellEscaped.eq_def]
  simp [hx1, hx2]

/-- The per-byte escaped form of any buffer contains no unescaped reserved
byte. -/
lemma wellEscaped_escAll (b : List Nat) : wellEscaped (escAll b) = true := by
  induction b with
  | nil => rfl
  | cons x b ih =>
    by_cases hx1 : x = START_FRAME
    · subst hx1
      rw [escAll_start_frame_cons, wellEscaped_esc_start_cons, ih]
    · by_cases hx2 : x = ESCAPE
      · subst hx2
        rw [escAll_escape_cons, wellEscaped_esc_esc_cons, ih]
      · rw [escAll_harmless_cons hx1 hx2, wellEscaped_harmless_cons hx1 hx2, ih]

lemma start_frame_not_mem_escapeByte (x : Nat) :
    START_FRAME ∉ escapeByte x := by
  unfold escapeByte
  split
  · decide
  · split
    · decide
    · next h1 h2 =>
      simp only [List.mem_singleton]
      exact fun h => h1 h.symm

/-- The literal start marker never occurs in escaped output. -/
lemma start_frame_not_mem_escAll (b : List Nat) :
    START_FRAME ∉ escAll b := by
  induction b with
  | nil => simp [escAll_nil]
  | cons x b ih =>
    rw [escAll_cons]
    simp only [List.mem_append]
    rintro (hmem | hmem)
    · exact start_frame_not_mem_escapeByte x hmem
    · exact ih hmem

end FLARM

namespace FlarmDevice

/-- A frame that passes every check is accepted with its message type. -/
lemma waitIteration_good_frame (seq : Nat) (h : FLARM.FrameHeader)
    (p rest : List Nat) (hwf : h.WF) (hl : h.length = 8 + p.length)
    (hp : 2 ≤ p.length) (hcrc : h.crc = FLARM.CalculateCRC h p)
    (hty : h.type = FLARM.MT_ACK ∨ h.type = FLARM.MT_NACK)
    (hsq : FLARM.fromLE16 p = seq) :
    waitIteration seq (frameBytes h p ++ rest) = .matched h.type rest := by
  have hstep := waitIteration_frame seq h p rest hwf hl (by omega)
  rw [if_neg (by simp [hcrc]), if_neg (by tauto),
    if_neg (by omega : ¬p.length < 2), if_pos hsq] at hstep
  exact hstep

end FlarmDevice

/-- C1: for every byte sequence `b` (nonempty, per the `assert(length > 0)`
preconditions of `FLARM::SendEscaped` and `FLARM::ReceiveEscaped`; reserved
values may occur at every position), decoding the stream produced by
`SendEscaped(b)` via `ReceiveEscaped` into a destination of `b`'s length
reconstructs exactly `b` (and consumes the whole stream). -/
theorem C1_send_receive_round_trip (b : List Nat) (hb : b ≠ [])
    (hbytes : ∀ x ∈ b, x < 256) :
    FLARM.ReceiveEscaped b.length (FLARM.SendEscaped b) = .ok b [] := by
  rw [FLARM.SendEscaped_eq_escAll]
  have h := FLARM.ReceiveEscaped_escAll b []
  rwa [List.append_nil] at h

/-- C1 witness: the round trip at a concrete input containing both reserved
bytes. -/
theorem C1_send_receive_round_trip_witness :
    ([0x73, 0x78, 0x41, 0x73, 0x78] ≠ ([] : List Nat)) ∧
      (∀ x ∈ [0x73, 0x78, 0x41, 0x73, 0x78], x < 256) ∧
      FLARM.ReceiveEscaped 5 (FLARM.SendEscaped [0x73, 0x78, 0x41, 0x73, 0x78]) =
        .ok [0x73, 0x78, 0x41, 0x73, 0x78] [] :=
  ⟨by decide, by decide,
    C1_send_receive_round_trip [0x73, 0x78, 0x41, 0x73, 0x78] (by decide)
      (by decide)⟩

/-- C2: `FLARM::SendEscaped` writes each byte that is neither reserved value
verbatim, the two-byte sequence `ESCAPE, ESCAPE_START` for every occurrence of
`START_FRAME`, and `ESCAPE, ESCAPE_ESCAPE` for every occurrence of `ESCAPE`
(the per-byte rule `escapeByte`, concatenated over the input); consequently
the encoded output never contains an unescaped `START_FRAME` or `ESCAPE`. -/
theorem C2_SendEscaped_per_byte_escaping (b : List Nat) (hb : b ≠ [])
    (hbytes : ∀ x ∈ b, x < 256) :
    FLARM.SendEscaped b = b.flatMap FLARM.escapeByte ∧
      wellEscaped (FLARM.SendEscaped b) = true ∧
      FLARM.START_FRAME ∉ FLARM.SendEscaped b := by
  refine ⟨FLARM.SendEscaped_eq_escAll b, ?_, ?_⟩
  · rw [FLARM.SendEscaped_eq_escAll]
    exact FLARM.wellEscaped_escAll b
  · rw [FLARM.SendEscaped_eq_escAll]
    exact FLARM.start_frame_not_mem_escAll b

/-- C2 witness: the escaping rule at a concrete input containing both
reserved bytes. -/
theorem C2_SendEscaped_per_byte_escaping_witness :
    ([0x73, 0x41, 0x78] ≠ ([] : List Nat)) ∧
      (∀ x ∈ [0x73, 0x41, 0x78], x < 256) ∧
      FLARM.SendEscaped [0x73, 0x41, 0x78] =
        [0x73, 0x41, 0x78].flatMap FLARM.escapeByte ∧
      wellEscaped (FLARM.SendEscaped [0x73, 0x41, 0x78]) = true ∧
      FLARM.START_FRAME ∉ FLARM.SendEscaped [0x73, 0x41, 0x78] :=
  ⟨by decide, by decide,
    C2_SendEscaped_per_byte_escaping [0x73, 0x41, 0x78] (by decide) (by decide)⟩

/-- C3: in the wait loop of `FlarmDevice::WaitForACKOrNACK`, a frame whose CRC
verification fails is silently discarded (`continue`, never an exception), and
a wire carrying one corrupted frame (bad CRC) immediately followed by one
valid ACK frame for the expected sequence number still yields a successful
match within the remaining iteration budget (any budget of at least two loop
iterations). -/
theorem C3_crc_failure_discarded_and_resync (seq fuel : Nat)
    (h h2 : FLARM.FrameHeader) (p p2 rest : List Nat)
    (hwf : h.WF) (hl : h.length = 8 + p.length) (hgt : 8 < h.length)
    (hcrc : h.crc ≠ FLARM.CalculateCRC h p)
    (hwf2 : h2.WF) (hl2 : h2.length = 8 + p2.length) (hp2 : 2 ≤ p2.length)
    (hcrc2 : h2.crc = FLARM.CalculateCRC h2 p2)
    (hty2 : h2.type = FLARM.MT_ACK) (hsq2 : FLARM.fromLE16 p2 = seq) :
    FlarmDevice.waitIteration seq (frameBytes h p ++ rest) = .rejected rest ∧
      FlarmDevice.WaitForACKOrNACK seq (fuel + 2)
          (frameBytes h p ++ (frameBytes h2 p2 ++ rest)) =
        .result FLARM.MT_ACK := by
  have hdiscard : ∀ tail : List Nat,
      FlarmDevice.waitIteration seq (frameBytes h p ++ tail) = .rejected tail := by
    intro tail
    have hstep := FlarmDevice.waitIteration_frame seq h p tail hwf hl hgt
    rw [if_pos hcrc] at hstep
    exact hstep
  refine ⟨hdiscard rest, ?_⟩
  have hmatch := FlarmDevice.waitIteration_good_frame seq h2 p2 rest hwf2 hl2
    hp2 hcrc2 (Or.inl hty2) hsq2
  simp only [FlarmDevice.WaitForACKOrNACK, hdiscard (frameBytes h2 p2 ++ rest),
    hmatch, hty2]

/-- C3 witness: a concrete corrupted ACK frame followed by a valid ACK frame
for sequence number 7. -/
theorem C3_crc_failure_discarded_and_resync_witness :
    (FLARM.FrameHeader.mk 10 0 7 FLARM.MT_ACK 0).WF ∧
      (FLARM.FrameHeader.mk 10 0 7 FLARM.MT_ACK 0).length = 8 + [7, 0].length ∧
      8 < (FLARM.FrameHeader.mk 10 0 7 FLARM.MT_ACK 0).length ∧
      (FLARM.FrameHeader.mk 10 0 7 FLARM.MT_ACK 0).crc ≠
        FLARM.CalculateCRC (FLARM.FrameHeader.mk 10 0 7 FLARM.MT_ACK 0) [7, 0] ∧
      (FLARM.PrepareFrameHeader 7 FLARM.MT_ACK [7, 0]).WF ∧
      (FLARM.PrepareFrameHeader 7 FLARM.MT_ACK [7, 0]).length = 8 + [7, 0].length ∧
      2 ≤ [7, 0].length ∧
      (FLARM.PrepareFrameHeader 7 FLARM.MT_ACK [7, 0]).crc =
        FLARM.CalculateCRC (FLARM.PrepareFrameHeader 7 FLARM.MT_ACK [7, 0]) [7, 0] ∧
      (FLARM.PrepareFrameHeader 7 FLARM.MT_ACK [7, 0]).type = FLARM.MT_ACK ∧
      FLARM.fromLE16 [7, 0] = 7 ∧
      FlarmDevice.WaitForACKOrNACK 7 2
          (frameBytes (FLARM.FrameHeader.mk 10 0 7 FLARM.MT_ACK 0) [7, 0] ++
            (frameBytes (FLARM.PrepareFrameHeader 7 FLARM.MT_ACK [7, 0]) [7, 0] ++ [])) =
        .result FLARM.MT_ACK :=
  ⟨by decide, by decide, by decide, by decide, by decide, by decide, by decide,
    by decide, by decide, by decide,
    (C3_crc_failure_discarded_and_resync 7 0
      (FLARM.FrameHeader.mk 10 0 7 FLARM.MT_ACK 0)
      (FLARM.PrepareFrameHeader 7 FLARM.MT_ACK [7, 0]) [7, 0] [7, 0] []
      (by decide) (by decide) (by decide) (by decide) (by decide) (by decide)
      (by decide) (by decide) (by decide) (by decide)).2⟩

/-- C4: a received frame that decodes correctly and passes the length and CRC
validation is accepted if and only if its type is ACK or NACK and the first
two payload bytes, read as a little-endian 16-bit integer, equal the expected
sequence number (first conjunct); a frame whose sequence number mismatches is
silently rejected and the wait loop simply continues on the remaining wire
with its remaining budget (second conjunct), so a subsequent
correctly-sequenced frame within the same budget is still matched (third
conjunct). -/
theorem C4_accept_iff_type_and_sequence (seq fuel : Nat)
    (h h2 : FLARM.FrameHeader) (p p2 rest s2 : List Nat)
    (hwf : h.WF) (hl : h.length = 8 + p.length) (hp : 2 ≤ p.length)
    (hcrc : h.crc = FLARM.CalculateCRC h p) :
    (FlarmDevice.waitIteration seq (frameBytes h p ++ rest) =
        if (h.type = FLARM.MT_ACK ∨ h.type = FLARM.MT_NACK) ∧
            FLARM.fromLE16 p = seq
        then .matched h.type rest else .rejected rest) ∧
      (FLARM.fromLE16 p ≠ seq →
        FlarmDevice.WaitForACKOrNACK seq (fuel + 1) (frameBytes h p ++ s2) =
          FlarmDevice.WaitForACKOrNACK seq fuel s2) ∧
      (FLARM.fromLE16 p ≠ seq → h2.WF → h2.length = 8 + p2.length →
        2 ≤ p2.length → h2.crc = FLARM.CalculateCRC h2 p2 →
        (h2.type = FLARM.MT_ACK ∨ h2.type = FLARM.MT_NACK) →
        FLARM.fromLE16 p2 = seq →
        FlarmDevice.WaitForACKOrNACK seq (fuel + 2)
            (frameBytes h p ++ (frameBytes h2 p2 ++ rest)) =
          .result h2.type) := by
  have hstep : ∀ tail : List Nat,
      FlarmDevice.waitIteration seq (frameBytes h p ++ tail) =
        if (h.type = FLARM.MT_ACK ∨ h.type = FLARM.MT_NACK) ∧
            FLARM.fromLE16 p = seq
        then .matched h.type tail else .rejected tail := by
    intro tail
    have hfr := FlarmDevice.waitIteration_frame seq h p tail hwf hl (by omega)
    rw [if_neg (by simp [hcrc]), if_neg (by omega : ¬p.length < 2)] at hfr
    rw [hfr]
    by_cases hty : h.type = FLARM.MT_ACK ∨ h.type = FLARM.MT_NACK
    · have hty' : ¬(h.type ≠ FLARM.MT_ACK ∧ h.type ≠ FLARM.MT_NACK) := by tauto
      by_cases hsq : FLARM.fromLE16 p = seq
      · rw [if_neg hty', if_pos hsq, if_pos ⟨hty, hsq⟩]
      · rw [if_neg hty', if_neg hsq, if_neg (by tauto)]
    · have hty' : h.type ≠ FLARM.MT_ACK ∧ h.type ≠ FLARM.MT_NACK := by tauto
      rw [if_pos hty', if_neg (by tauto)]
  have hrej : FLARM.fromLE16 p ≠ seq → ∀ tail : List Nat,
      FlarmDevice.waitIteration seq (frameBytes h p ++ tail) = .rejected tail := by
    intro hsq tail
    rw [hstep tail, if_neg (by tauto)]
  refine ⟨hstep rest, ?_, ?_⟩
  · intro hsq
    simp only [FlarmDevice.WaitForACKOrNACK, hrej hsq s2]
  · intro hsq hwf2 hl2 hp2 hcrc2 hty2 hsq2
    have hmatch := FlarmDevice.waitIteration_good_frame seq h2 p2 rest hwf2 hl2
      hp2 hcrc2 hty2 hsq2
    simp only [FlarmDevice.WaitForACKOrNACK, hrej hsq (frameBytes h2 p2 ++ rest),
      hmatch]

/-- C4 witness: an ACK frame for sequence number 8 is rejected while waiting
for sequence number 7, and a following ACK frame for 7 is then matched. -/
theorem C4_accept_iff_type_and_sequence_witness :
    (FLARM.PrepareFrameHeader 8 FLARM.MT_ACK [8, 0]).WF ∧
      (FLARM.PrepareFrameHeader 8 FLARM.MT_ACK [8, 0]).length = 8 + [8, 0].length ∧
      2 ≤ [8, 0].length ∧
      (FLARM.PrepareFrameHeader 8 FLARM.MT_ACK [8, 0]).crc =
        FLARM.CalculateCRC (FLARM.PrepareFrameHeader 8 FLARM.MT_ACK [8, 0]) [8, 0] ∧
      FLARM.fromLE16 [8, 0] ≠ 7 ∧
      FLARM.fromLE16 [7, 0] = 7 ∧
      FlarmDevice.waitIteration 7
          (frameBytes (FLARM.PrepareFrameHeader 8 FLARM.MT_ACK [8, 0]) [8, 0] ++ []) =
        .rejected [] ∧
      FlarmDevice.WaitForACKOrNACK 7 2
          (frameBytes (FLARM.PrepareFrameHeader 8 FLARM.MT_ACK [8, 0]) [8, 0] ++
            (frameBytes (FLARM.PrepareFrameHeader 7 FLARM.MT_ACK [7, 0]) [7, 0] ++ [])) =
        .result (FLARM.PrepareFrameHeader 7 FLARM.MT_ACK [7, 0]).type := by
  have hthm := C4_accept_iff_type_and_sequence 7 0
    (FLARM.PrepareFrameHeader 8 FLARM.MT_ACK [8, 0])
    (FLARM.PrepareFrameHeader 7 FLARM.MT_ACK [7, 0]) [8, 0] [7, 0] [] []
    (by decide) (by decide) (by decide) (by decide)
  refine ⟨by decide, by decide, by decide, by decide, by decide, by decide, ?_, ?_⟩
  · have h1 := hthm.1
    rw [if_neg (by decide)] at h1
    exact h1
  · exact hthm.2.2 (by decide) (by decide) (by decide) (by decide) (by decide)
      (by decide) (by decide)

/-- C5: `FlarmDevice::PrepareFrameHeader` returns a header with
`length = header_size + payload_length` and `version = 0`, stores the current
value of the caller's sequence counter in the header and then advances that
counter, and sets `crc` to the CRC computed over the header with the crc
field zeroed, concatenated with the payload bytes.  (The payload-length bound
keeps the 16-bit `length` field from wrapping; the counter is 16-bit.) -/
theorem C5_PrepareFrameHeader_fields (d : FlarmDevice) (mt : Nat)
    (p : List Nat) (hp : p.length < 65528) (hd : d.sequence_number < 65536) :
    (FlarmDevice.PrepareFrameHeader d mt p).1.length = 8 + p.length ∧
      (FlarmDevice.PrepareFrameHeader d mt p).1.version = 0 ∧
      (FlarmDevice.PrepareFrameHeader d mt p).1.sequence_number =
        d.sequence_number ∧
      (FlarmDevice.PrepareFrameHeader d mt p).2.sequence_number =
        (d.sequence_number + 1) % 65536 ∧
      (FlarmDevice.PrepareFrameHeader d mt p).1.crc =
        FLARM.crc16 (FLARM.headerBytes
          { (FlarmDevice.PrepareFrameHeader d mt p).1 with crc := 0 } ++ p) := by
  simp only [FlarmDevice.PrepareFrameHeader, FLARM.PrepareFrameHeader,
    FLARM.CalculateCRC]
  refine ⟨by omega, trivial, by omega, trivial, trivial⟩

/-- C5 witness: framing a 2-byte payload on a device whose counter is 7. -/
theorem C5_PrepareFrameHeader_fields_witness :
    ([7, 0] : List Nat).length < 65528 ∧
      (FlarmDevice.mk 7).sequence_number < 65536 ∧
      (FlarmDevice.PrepareFrameHeader ⟨7⟩ FLARM.MT_ACK [7, 0]).1.length = 10 ∧
      (FlarmDevice.PrepareFrameHeader ⟨7⟩ FLARM.MT_ACK [7, 0]).1.version = 0 ∧
      (FlarmDevice.PrepareFrameHeader ⟨7⟩ FLARM.MT_ACK [7, 0]).1.sequence_number = 7 ∧
      (FlarmDevice.PrepareFrameHeader ⟨7⟩ FLARM.MT_ACK [7, 0]).2.sequence_number = 8 ∧
      (FlarmDevice.PrepareFrameHeader ⟨7⟩ FLARM.MT_ACK [7, 0]).1.crc =
        FLARM.crc16 (FLARM.headerBytes
          { (FlarmDevice.PrepareFrameHeader ⟨7⟩ FLARM.MT_ACK [7, 0]).1 with
              crc := 0 } ++ [7, 0]) := by
  have hthm := C5_PrepareFrameHeader_fields ⟨7⟩ FLARM.MT_ACK [7, 0]
    (by decide) (by decide)
  exact ⟨by decide, by decide, hthm.1, hthm.2.1, hthm.2.2.1, hthm.2.2.2.1,
    hthm.2.2.2.2⟩

/-- C6 counterexample: a frame whose header announces `length = 8` (equal to
the header size, i.e. a zero-length payload) with a correct CRC and ACK type
is nevertheless rejected by the wait loop, because the code's length
validation is `length <= sizeof(header)`, not `length < sizeof(header)`:
the claim that such a frame "is not rejected by the length validation" is
false. -/
theorem C6_zero_payload_rejected_counterexample :
    FlarmDevice.waitIteration 0 (frameBytes
        ⟨8, 0, 0, FLARM.MT_ACK,
          FLARM.CalculateCRC ⟨8, 0, 0, FLARM.MT_ACK, 0⟩ []⟩ []) =
      .rejected [] ∧
    ¬(FLARM.FrameHeader.length
        ⟨8, 0, 0, FLARM.MT_ACK,
          FLARM.CalculateCRC ⟨8, 0, 0, FLARM.MT_ACK, 0⟩ []⟩ < 8) := by
  constructor
  · decide
  · decide

/-- C6 amended: after decoding a header, `FlarmDevice::WaitForACKOrNACK`
rejects it at the length validation exactly when `header.length` is less than
*or equal to* the header size — a frame whose length equals the header size
(zero-length payload) is also rejected, without consuming anything after the
header (first conjunct) — while a header with `length` strictly greater than
the header size passes the length validation and proceeds to the payload and
the remaining checks (second conjunct). -/
theorem C6_length_check_rejects_iff_le_header_size (seq : Nat)
    (h : FLARM.FrameHeader) (p tail : List Nat) (hwf : h.WF) :
    (h.length ≤ 8 →
      FlarmDevice.waitIteration seq (frameBytes h p ++ tail) =
        .rejected (FLARM.escAll p ++ tail)) ∧
      (h.length = 8 + p.length → 8 < h.length →
        (FlarmDevice.waitIteration seq (frameBytes h p ++ tail) =
            .rejected tail ∨
          FlarmDevice.waitIteration seq (frameBytes h p ++ tail) =
            .matched h.type tail)) := by
  constructor
  · intro hle
    exact FlarmDevice.waitIteration_frame_short seq h p tail hwf hle
  · intro hl hgt
    rw [FlarmDevice.waitIteration_frame seq h p tail hwf hl hgt]
    split_ifs <;> first | exact Or.inl rfl | exact Or.inr rfl

/-- C6 amended witness: the length-8 frame of the counterexample is rejected
with its trailing wire bytes untouched, and a length-10 ACK frame passes the
length validation and is matched. -/
theorem C6_length_check_rejects_iff_le_header_size_witness :
    (FLARM.FrameHeader.mk 8 0 0 FLARM.MT_ACK
        (FLARM.CalculateCRC ⟨8, 0, 0, FLARM.MT_ACK, 0⟩ [])).WF ∧
      (FLARM.FrameHeader.mk 8 0 0 FLARM.MT_ACK
        (FLARM.CalculateCRC ⟨8, 0, 0, FLARM.MT_ACK, 0⟩ [])).length ≤ 8 ∧
      FlarmDevice.waitIteration 0 (frameBytes
          ⟨8, 0, 0, FLARM.MT_ACK,
            FLARM.CalculateCRC ⟨8, 0, 0, FLARM.MT_ACK, 0⟩ []⟩ [] ++ []) =
        .rejected (FLARM.escAll [] ++ []) ∧
      (FLARM.PrepareFrameHeader 7 FLARM.MT_ACK [7, 0]).WF ∧
      (FlarmDevice.waitIteration 7
          (frameBytes (FLARM.PrepareFrameHeader 7 FLARM.MT_ACK [7, 0]) [7, 0] ++ []) =
            .rejected [] ∨
        FlarmDevice.waitIteration 7
          (frameBytes (FLARM.PrepareFrameHeader 7 FLARM.MT_ACK [7, 0]) [7, 0] ++ []) =
            .matched (FLARM.PrepareFrameHeader 7 FLARM.MT_ACK [7, 0]).type []) := by
  refine ⟨by decide, by decide, ?_, by decide, ?_⟩
  · exact (C6_length_check_rejects_iff_le_header_size 0
      ⟨8, 0, 0, FLARM.MT_ACK, FLARM.CalculateCRC ⟨8, 0, 0, FLARM.MT_ACK, 0⟩ []⟩
      [] [] (by decide)).1 (by decide)
  · exact (C6_length_check_rejects_iff_le_header_size 7
      (FLARM.PrepareFrameHeader 7 FLARM.MT_ACK [7, 0]) [7, 0] [] (by decide)).2
      (by decide) (by decide)

/-- C7: during decoding, an `ESCAPE` byte followed by any byte other than
`ESCAPE_START` or `ESCAPE_ESCAPE` makes the decode fail immediately:
`ReceiveSomeUnescape` returns the failure sentinel (`nullptr`, modelled as
`.bad`), and `FLARM::ReceiveEscaped` returns `false` without filling the rest
of the destination — also when the invalid pair sits behind a correctly
escaped prefix, as long as the destination asks for more bytes than the
prefix decodes to. -/
theorem C7_invalid_escape_fails (b rest : List Nat) (x cap : Nat)
    (hx1 : x ≠ FLARM.ESCAPE_START) (hx2 : x ≠ FLARM.ESCAPE_ESCAPE)
    (hcap : b.length < cap) :
    (ReceiveSomeUnescape cap (FLARM.ESCAPE :: x :: rest)).isBad = true ∧
      (FLARM.ReceiveEscaped cap
        (FLARM.escAll b ++ FLARM.ESCAPE :: x :: rest)).isBad = true := by
  constructor
  · obtain ⟨r, hr⟩ := FLARM.unescapeChunk_badTail hx1 hx2 [] rest
      (min cap (FLARM.ESCAPE :: x :: rest).length)
      (by simp [FLARM.escAll_nil]; omega)
    simp only [FLARM.escAll_nil, List.nil_append] at hr
    unfold ReceiveSomeUnescape
    rw [if_neg (by omega), if_neg (by simp), hr]
    rfl
  · obtain ⟨r, hr⟩ := FLARM.ReceiveEscaped_badTail hx1 hx2 b rest cap hcap
    rw [hr]
    rfl

/-- C7 witness: the invalid escape pair `ESCAPE, 0x99` behind the escaped
byte `0x41`. -/
theorem C7_invalid_escape_fails_witness :
    ((0x99 : Nat) ≠ FLARM.ESCAPE_START) ∧
      ((0x99 : Nat) ≠ FLARM.ESCAPE_ESCAPE) ∧
      ([0x41] : List Nat).length < 2 ∧
      (ReceiveSomeUnescape 2 (FLARM.ESCAPE :: 0x99 :: [])).isBad = true ∧
      (FLARM.ReceiveEscaped 2
        (FLARM.escAll [0x41] ++ FLARM.ESCAPE :: 0x99 :: [])).isBad = true := by
  have hthm := C7_invalid_escape_fails [0x41] [] 0x99 2 (by decide) (by decide)
    (by decide)
  exact ⟨by decide, by decide, by decide, hthm.1, hthm.2⟩

/-- The blocking calls of one loop iteration never push the clock past the
deadline: each call is granted only `endT - now`. -/
lemma runCalls_le_endT (endT : Nat) (needs : List Nat) :
    ∀ now : Nat, now ≤ endT → (runCalls endT now needs).1 ≤ endT := by
  induction needs with
  | nil =>
    intro now hnow
    exact hnow
  | cons need rest ih =>
    intro now hnow
    rw [runCalls]
    split
    · next hfit => exact ih (now + need) (by omega)
    · simp only [runCalls]
      omega

/-- C8: the wait loop computes one absolute deadline at its start and hands
each blocking call only the remaining budget; rejected or corrupted frames
never extend it, so the clock never passes the deadline no matter how many
frames are rejected (first conjunct); once the deadline has expired the loop
exits immediately with the no-match outcome (second conjunct), which in the
byte-level embedding is the `FLARM::MT_ERROR` return of
`FlarmDevice::WaitForACKOrNACK` when its iteration budget is exhausted (third
conjunct). -/
theorem C8_deadline_never_extended (endT now seq : Nat)
    (evs : List (List Nat × Option Nat)) (s : List Nat) (hnow : now ≤ endT) :
    (timedWait endT now evs).1 ≤ endT ∧
      (endT ≤ now → timedWait endT now evs = (now, .noMatch)) ∧
      FlarmDevice.WaitForACKOrNACK seq 0 s = .result FLARM.MT_ERROR := by
  refine ⟨?_, ?_, rfl⟩
  · induction evs generalizing now with
    | nil =>
      show (if endT ≤ now then (now, TimedOutcome.noMatch)
        else (endT, TimedOutcome.timedOut)).1 ≤ endT
      split
      · exact hnow
      · exact le_refl endT
    | cons ev evs ih =>
      obtain ⟨needs, dec⟩ := ev
      show (if endT ≤ now then (now, TimedOutcome.noMatch)
        else if (runCalls endT now needs).2 then
          match dec with
          | some t => ((runCalls endT now needs).1, TimedOutcome.matched t)
          | none => timedWait endT (runCalls endT now needs).1 evs
        else ((runCalls endT now needs).1, TimedOutcome.timedOut)).1 ≤ endT
      split
      · exact hnow
      · next hlt =>
        have hr := runCalls_le_endT endT needs now hnow
        split
        · cases dec with
          | some t => exact hr
          | none => exact ih (runCalls endT now needs).1 hr
        · exact hr
  · intro hle
    cases evs with
    | nil =>
      show (if endT ≤ now then (now, TimedOutcome.noMatch)
        else (endT, TimedOutcome.timedOut)) = (now, TimedOutcome.noMatch)
      rw [if_pos hle]
    | cons ev evs =>
      obtain ⟨needs, dec⟩ := ev
      show (if endT ≤ now then (now, TimedOutcome.noMatch)
        else if (runCalls endT now needs).2 then
          match dec with
          | some t => ((runCalls endT now needs).1, TimedOutcome.matched t)
          | none => timedWait endT (runCalls endT now needs).1 evs
        else ((runCalls endT now needs).1, TimedOutcome.timedOut)) =
          (now, TimedOutcome.noMatch)
      rw [if_pos hle]

/-- C8 witness: a budget of 10 units, a corrupted frame eating 4 units and an
accepted frame eating 5: the clock ends at 9 and never passes 10; with the
budget already exhausted the wait returns the no-match outcome at once. -/
theorem C8_deadline_never_extended_witness :
    (0 : Nat) ≤ 10 ∧
      (timedWait 10 0 [([4], none), ([5], some FLARM.MT_ACK)]).1 ≤ 10 ∧
      (timedWait 10 10 [([4], none)] = (10, .noMatch)) ∧
      FlarmDevice.WaitForACKOrNACK 7 0 [1, 2, 3] = .result FLARM.MT_ERROR := by
  refine ⟨by decide, ?_, ?_, ?_⟩
  · exact (C8_deadline_never_extended 10 0 7 [([4], none), ([5], some FLARM.MT_ACK)]
      [] (by decide)).1
  · exact (C8_deadline_never_extended 10 10 7 [([4], none)] [] (by decide)).2.1
      (by decide)
  · exact (C8_deadline_never_extended 10 0 7 [] [1, 2, 3] (by decide)).2.2

/-- C9: `FlarmDevice::BinaryPing` builds a header for a zero-payload PING
message, sends the start byte and the escaped header, and waits for an ACK
matching that header's sequence number; the wait loop running out of budget —
whether as a `DeviceTimeout` exception (caught by the `catch` clause) or as
the `FLARM::MT_ERROR` return — yields the boolean `false` rather than an
error, and `true` is returned exactly on a matched ACK. -/
theorem C9_BinaryPing_builds_sends_waits (d : FlarmDevice) (fuel : Nat)
    (rx : List Nat) :
    (FlarmDevice.PrepareFrameHeader d FLARM.MT_PING []).1.type =
        FLARM.MT_PING ∧
      (FlarmDevice.PrepareFrameHeader d FLARM.MT_PING []).1.length = 8 ∧
      (FlarmDevice.BinaryPing d fuel rx).2.2 =
        FLARM.START_FRAME :: FLARM.SendEscaped (FLARM.headerBytes
          (FlarmDevice.PrepareFrameHeader d FLARM.MT_PING []).1) ∧
      ((FlarmDevice.BinaryPing d fuel rx).1 = true ↔
        FlarmDevice.WaitForACKOrNACK
          (FlarmDevice.PrepareFrameHeader d FLARM.MT_PING []).1.sequence_number
          fuel rx = .result FLARM.MT_ACK) ∧
      (FlarmDevice.WaitForACKOrNACK
          (FlarmDevice.PrepareFrameHeader d FLARM.MT_PING []).1.sequence_number
          fuel rx = .timedOut → (FlarmDevice.BinaryPing d fuel rx).1 = false) ∧
      (FlarmDevice.WaitForACKOrNACK
          (FlarmDevice.PrepareFrameHeader d FLARM.MT_PING []).1.sequence_number
          fuel rx = .result FLARM.MT_ERROR →
        (FlarmDevice.BinaryPing d fuel rx).1 = false) := by
  refine ⟨rfl, rfl, rfl, ?_, ?_, ?_⟩
  · cases hw : FlarmDevice.WaitForACKOrNACK
        (FlarmDevice.PrepareFrameHeader d FLARM.MT_PING []).1.sequence_number
        fuel rx with
    | timedOut =>
      simp only [FlarmDevice.BinaryPing, FlarmDevice.WaitForACK, hw]
      simp
    | result t =>
      simp only [FlarmDevice.BinaryPing, FlarmDevice.WaitForACK, hw]
      simp [beq_iff_eq]
  · intro hw
    simp only [FlarmDevice.BinaryPing, FlarmDevice.WaitForACK, hw]
  · intro hw
    simp only [FlarmDevice.BinaryPing, FlarmDevice.WaitForACK, hw]
    decide

/-- C9 witness: with an exhausted budget and a silent wire the wait returns
the `FLARM::MT_ERROR` sentinel and `BinaryPing` returns `false`. -/
theorem C9_BinaryPing_builds_sends_waits_witness :
    (FlarmDevice.PrepareFrameHeader ⟨7⟩ FLARM.MT_PING []).1.type =
        FLARM.MT_PING ∧
      FlarmDevice.WaitForACKOrNACK
        (FlarmDevice.PrepareFrameHeader ⟨7⟩ FLARM.MT_PING []).1.sequence_number
        0 [] = .result FLARM.MT_ERROR ∧
      (FlarmDevice.BinaryPing ⟨7⟩ 0 []).1 = false :=
  ⟨(C9_BinaryPing_builds_sends_waits ⟨7⟩ 0 []).1, by decide,
    (C9_BinaryPing_builds_sends_waits ⟨7⟩ 0 []).2.2.2.2.2 (by decide)⟩

/-- C10: a received frame that decodes correctly, passes the length check and
CRC verification and has type ACK or NACK is still silently rejected when its
payload is shorter than 2 bytes, and the loop keeps waiting on the remaining
wire with its remaining budget (first two conjuncts); a subsequent frame with
a payload of at least 2 bytes and the expected sequence number is then
matched (third conjunct). -/
theorem C10_short_payload_rejected (seq fuel : Nat)
    (h h2 : FLARM.FrameHeader) (p p2 rest : List Nat)
    (hwf : h.WF) (hl : h.length = 8 + p.length)
    (hty : h.type = FLARM.MT_ACK ∨ h.type = FLARM.MT_NACK)
    (hcrc : h.crc = FLARM.CalculateCRC h p) (hp : p.length < 2) :
    FlarmDevice.waitIteration seq (frameBytes h p ++ rest) = .rejected rest ∧
      FlarmDevice.WaitForACKOrNACK seq (fuel + 1) (frameBytes h p ++ rest) =
        FlarmDevice.WaitForACKOrNACK seq fuel rest ∧
      (h2.WF → h2.length = 8 + p2.length → 2 ≤ p2.length →
        h2.crc = FLARM.CalculateCRC h2 p2 →
        (h2.type = FLARM.MT_ACK ∨ h2.type = FLARM.MT_NACK) →
        FLARM.fromLE16 p2 = seq →
        FlarmDevice.WaitForACKOrNACK seq (fuel + 2)
            (frameBytes h p ++ (frameBytes h2 p2 ++ rest)) =
          .result h2.type) := by
  have hrej : ∀ tail : List Nat,
      FlarmDevice.waitIteration seq (frameBytes h p ++ tail) = .rejected tail := by
    intro tail
    by_cases hp0 : p.length = 0
    · have hpnil : p = [] := List.length_eq_zero.mp hp0
      subst hpnil
      have hshort := FlarmDevice.waitIteration_frame_short seq h [] tail hwf
        (by omega)
      simpa [FLARM.escAll_nil] using hshort
    · have hstep := FlarmDevice.waitIteration_frame seq h p tail hwf hl
        (by omega)
      rw [if_neg (by simp [hcrc]), if_neg (by tauto), if_pos hp] at hstep
      exact hstep
  refine ⟨hrej rest, ?_, ?_⟩
  · simp only [FlarmDevice.WaitForACKOrNACK, hrej rest]
  · intro hwf2 hl2 hp2 hcrc2 hty2 hsq2
    have hmatch := FlarmDevice.waitIteration_good_frame seq h2 p2 rest hwf2 hl2
      hp2 hcrc2 hty2 hsq2
    simp only [FlarmDevice.WaitForACKOrNACK, hrej (frameBytes h2 p2 ++ rest),
      hmatch]

/-- C10 witness: a valid ACK frame whose payload is the single byte 7 is
rejected while waiting for sequence number 7, and a following ACK frame with
the 2-byte payload is matched. -/
theorem C10_short_payload_rejected_witness :
    (FLARM.PrepareFrameHeader 7 FLARM.MT_ACK [7]).WF ∧
      (FLARM.PrepareFrameHeader 7 FLARM.MT_ACK [7]).length = 8 + [7].length ∧
      ((FLARM.PrepareFrameHeader 7 FLARM.MT_ACK [7]).type = FLARM.MT_ACK ∨
        (FLARM.PrepareFrameHeader 7 FLARM.MT_ACK [7]).type = FLARM.MT_NACK) ∧
      (FLARM.PrepareFrameHeader 7 FLARM.MT_ACK [7]).crc =
        FLARM.CalculateCRC (FLARM.PrepareFrameHeader 7 FLARM.MT_ACK [7]) [7] ∧
      ([7] : List Nat).length < 2 ∧
      FlarmDevice.waitIteration 7
        (frameBytes (FLARM.PrepareFrameHeader 7 FLARM.MT_ACK [7]) [7] ++ []) =
          .rejected [] ∧
      FlarmDevice.WaitForACKOrNACK 7 2
          (frameBytes (FLARM.PrepareFrameHeader 7 FLARM.MT_ACK [7]) [7] ++
            (frameBytes (FLARM.PrepareFrameHeader 7 FLARM.MT_ACK [7, 0]) [7, 0] ++ [])) =
        .result (FLARM.PrepareFrameHeader 7 FLARM.MT_ACK [7, 0]).type := by
  have hthm := C10_short_payload_rejected 7 0
    (FLARM.PrepareFrameHeader 7 FLARM.MT_ACK [7])
    (FLARM.PrepareFrameHeader 7 FLARM.MT_ACK [7, 0]) [7] [7, 0] []
    (by decide) (by decide) (by decide) (by decide) (by decide)
  exact ⟨by decide, by decide, by decide, by decide, by decide, hthm.1,
    hthm.2.2 (by decide) (by decide) (by decide) (by decide) (by decide)
      (by decide)⟩
